import Mathlib

/-!
Verification of the core of `serve.py` (bahrus/ssi-server): a static-file
HTTP server with SPA fallback and server-side includes (SSI).

The shallow embedding models:
 * `unquote` (urllib.parse.unquote): percent-decoding plus UTF-8 decoding
   with U+FFFD replacement for invalid byte sequences;
 * `osJoin` (os.path.join, POSIX, two arguments) and `dirname`
   (os.path.dirname, POSIX);
 * the regex `<!--\s*#include\s+virtual="([^"]+)"\s*-->` and Python's
   `re.sub` left-to-right non-overlapping scan (`matchDirective`,
   `subIncludes`);
 * `SPAHTTPRequestHandler.handle_includes` / `replace_include`;
 * `SPAHTTPRequestHandler.send_head`, with the filesystem and the
   inherited helpers (`os.path.isdir`, `os.path.exists`, `os.path.isfile`,
   `open`, reading + UTF-8 decoding, `guess_type`, `fstat`) abstracted as
   an explicit environment `Env`, and `translate_path` and `os.getcwd()`
   as explicit parameters.
-/

/-- Python regex `\s` (str mode): Unicode whitespace. -/
def isPySpace (c : Char) : Bool :=
  c = ' ' || c = '\t' || c = '\n' || c = '\r' || c = '\x0b' || c = '\x0c' ||
  c = '\x1c' || c = '\x1d' || c = '\x1e' || c = '\x1f' || c = '\x85' ||
  c = ' ' || c = ' ' ||
  (' ' ≤ c && c ≤ ' ') ||
  c = ' ' || c = ' ' || c = ' ' || c = ' ' || c = '　'

/-- Hexadecimal digit value, as in percent-escapes. -/
def hexVal? (c : Char) : Option Nat :=
  if '0' ≤ c && c ≤ '9' then some (c.toNat - 48)
  else if 'a' ≤ c && c ≤ 'f' then some (c.toNat - 87)
  else if 'A' ≤ c && c ≤ 'F' then some (c.toNat - 55)
  else none

/-- Is `b` a UTF-8 continuation byte (0x80..0xBF)? -/
def isCont (b : Nat) : Bool := 128 ≤ b && b ≤ 191

/-- Valid second byte after a three-byte leader `b0` (0xE0..0xEF). -/
def contE (b0 b1 : Nat) : Bool :=
  if b0 = 224 then 160 ≤ b1 && b1 ≤ 191
  else if b0 = 237 then 128 ≤ b1 && b1 ≤ 159
  else isCont b1

/-- Valid second byte after a four-byte leader `b0` (0xF0..0xF4). -/
def contF (b0 b1 : Nat) : Bool :=
  if b0 = 240 then 144 ≤ b1 && b1 ≤ 191
  else if b0 = 244 then 128 ≤ b1 && b1 ≤ 143
  else isCont b1

/-- The U+FFFD replacement character. -/
def replChar : Char := Char.ofNat 65533

/-- UTF-8 decoding of a byte sequence with replacement of invalid
sequences by U+FFFD, as Python's `bytes.decode("utf-8", errors="replace")`
does (one replacement per maximal invalid subpart). -/
def utf8DecodeReplace : List Nat → List Char
  | [] => []
  | b0 :: rest =>
    if b0 < 128 then Char.ofNat b0 :: utf8DecodeReplace rest
    else if 194 ≤ b0 && b0 ≤ 223 then
      match rest with
      | [] => [replChar]
      | b1 :: rest2 =>
        if isCont b1 then
          Char.ofNat ((b0 - 192) * 64 + (b1 - 128)) :: utf8DecodeReplace rest2
        else replChar :: utf8DecodeReplace (b1 :: rest2)
    else if 224 ≤ b0 && b0 ≤ 239 then
      match rest with
      | [] => [replChar]
      | b1 :: rest2 =>
        if contE b0 b1 then
          match rest2 with
          | [] => [replChar]
          | b2 :: rest3 =>
            if isCont b2 then
              Char.ofNat ((b0 - 224) * 4096 + (b1 - 128) * 64 + (b2 - 128)) ::
                utf8DecodeReplace rest3
            else replChar :: utf8DecodeReplace (b2 :: rest3)
        else replChar :: utf8DecodeReplace (b1 :: rest2)
    else if 240 ≤ b0 && b0 ≤ 244 then
      match rest with
      | [] => [replChar]
      | b1 :: rest2 =>
        if contF b0 b1 then
          match rest2 with
          | [] => [replChar]
          | b2 :: rest3 =>
            if isCont b2 then
              match rest3 with
              | [] => [replChar]
              | b3 :: rest4 =>
                if isCont b3 then
                  Char.ofNat ((b0 - 240) * 262144 + (b1 - 128) * 4096 +
                    (b2 - 128) * 64 + (b3 - 128)) :: utf8DecodeReplace rest4
                else replChar :: utf8DecodeReplace (b3 :: rest4)
            else replChar :: utf8DecodeReplace (b2 :: rest3)
        else replChar :: utf8DecodeReplace (b1 :: rest2)
    else replChar :: utf8DecodeReplace rest

/-- Collect the maximal run of `%XX` hex escapes at the head of the input,
returning the decoded bytes and the remaining characters. -/
def percentRun : List Char → (List Nat × List Char)
  | '%' :: h1 :: h2 :: rest =>
    match hexVal? h1, hexVal? h2 with
    | some a, some b =>
      let p := percentRun rest
      ((16 * a + b) :: p.1, p.2)
    | _, _ => ([], '%' :: h1 :: h2 :: rest)
  | l => ([], l)

/-- Fuelled scan for `unquote`: each maximal `%XX` run is decoded as a
byte string (UTF-8, errors replaced); other characters pass through.
Each step consumes at least one character and one unit of fuel, so fuel
equal to the input length never runs out. -/
def unquoteFuel : Nat → List Char → List Char
  | 0, l => l
  | _ + 1, [] => []
  | fuel + 1, c :: cs =>
    match percentRun (c :: cs) with
    | ([], _) => c :: unquoteFuel fuel cs
    | (b :: bs, r) => utf8DecodeReplace (b :: bs) ++ unquoteFuel fuel r

/-- Model of `urllib.parse.unquote` with the default
`encoding="utf-8", errors="replace"`. -/
def pyUnquote (s : String) : String := String.mk (unquoteFuel s.data.length s.data)

/-- Model of Python `str.startswith`. -/
def strStartsWith (s t : String) : Bool := s.data.take t.data.length == t.data

/-- Model of Python `str.endswith`. -/
def strEndsWith (s t : String) : Bool :=
  t.data.length ≤ s.data.length &&
    s.data.drop (s.data.length - t.data.length) == t.data

/-- Model of `os.path.join(a, b)` (POSIX, two arguments). -/
def osJoin (a b : String) : String :=
  if strStartsWith b "/" then b
  else if a = "" then b
  else if strEndsWith a "/" then a ++ b
  else a ++ "/" ++ b

instance : DecidableEq (Except String String) := fun x y =>
  match x, y with
  | .ok a, .ok b =>
    if h : a = b then isTrue (by rw [h])
    else isFalse (by intro hc; injection hc; contradiction)
  | .error a, .error b =>
    if h : a = b then isTrue (by rw [h])
    else isFalse (by intro hc; injection hc; contradiction)
  | .ok a, .error b => isFalse (by intro hc; cases hc)
  | .error a, .ok b => isFalse (by intro hc; cases hc)

/-- Model of `os.path.dirname` (POSIX): everything up to the last slash,
with trailing slashes stripped unless the head is all slashes. -/
def dirname (p : String) : String :=
  let head := (p.data.reverse.dropWhile (fun c => c != '/')).reverse
  if head.isEmpty then ""
  else if head.all (fun c => c == '/') then String.mk head
  else String.mk (head.reverse.dropWhile (fun c => c == '/')).reverse

/-- Drop an expected literal from the head of the input; `none` when the
input does not start with the literal. -/
def dropLit : List Char → List Char → Option (List Char)
  | [], l => some l
  | _ :: _, [] => none
  | p :: ps, c :: cs => if c = p then dropLit ps cs else none

/-- Attempt to match the directive regex
`<!--\s*#include\s+virtual="([^"]+)"\s*-->` anchored at the head of the
input. Since no whitespace character can begin `#include`, `virtual` or
`-->`, and `[^"]+` cannot cross the closing quote, the regex engine's
greedy matching is equivalent to this deterministic maximal-munch scan.
Returns the captured group and the characters after the match. -/
def matchDirective (l : List Char) : Option (String × List Char) :=
  match dropLit "<!--".data l with
  | none => none
  | some l1 =>
    match dropLit "#include".data (l1.dropWhile isPySpace) with
    | none => none
    | some l3 =>
      match l3 with
      | [] => none
      | c :: cs =>
        if isPySpace c then
          match dropLit "virtual=\"".data (cs.dropWhile isPySpace) with
          | none => none
          | some l5 =>
            let v := l5.takeWhile (fun d => d != '"')
            if v = [] then none
            else
              match l5.drop v.length with
              | [] => none
              | q :: l6 =>
                if q = '"' then
                  match dropLit "-->".data (l6.dropWhile isPySpace) with
                  | none => none
                  | some rest => some (String.mk v, rest)
                else none
        else none

theorem dropLit_length {pre l r : List Char} (h : dropLit pre l = some r) :
    r.length + pre.length = l.length := by
  induction pre generalizing l with
  | nil =>
    simp only [dropLit, Option.some.injEq] at h
    subst h; simp
  | cons p ps ih =>
    cases l with
    | nil => simp [dropLit] at h
    | cons c cs =>
      unfold dropLit at h
      split at h
      · have := ih h
        simp only [List.length_cons]
        omega
      · exact absurd h (by simp)

theorem dropLit_le {pre l r : List Char} (h : dropLit pre l = some r) :
    r.length ≤ l.length := by
  have := dropLit_length h; omega

theorem dropLit_lt {pre l r : List Char} (hpre : pre ≠ [])
    (h : dropLit pre l = some r) : r.length < l.length := by
  have := dropLit_length h
  have : pre.length ≠ 0 := by
    intro hz; exact hpre (List.length_eq_zero.mp hz)
  omega

theorem dropWhile_length_le (p : Char → Bool) (l : List Char) :
    (l.dropWhile p).length ≤ l.length := by
  induction l with
  | nil => simp [List.dropWhile]
  | cons c cs ih =>
    unfold List.dropWhile
    split
    · exact Nat.le_trans ih (by simp)
    · simp

theorem matchDirective_rest_length {l : List Char} {v : String}
    {rest : List Char} (h : matchDirective l = some (v, rest)) :
    rest.length < l.length := by
  unfold matchDirective at h
  split at h
  · exact absurd h (by simp)
  next l1 h1 =>
  split at h
  · exact absurd h (by simp)
  next l3 h2 =>
  split at h
  · exact absurd h (by simp)
  next c cs =>
  split at h
  case isFalse => exact absurd h (by simp)
  next hsp =>
  split at h
  · exact absurd h (by simp)
  next l5 h3 =>
  simp only at h
  split at h
  · exact absurd h (by simp)
  next hv =>
  split at h
  case h_1 => exact absurd h (by simp)
  next q l6 hd =>
  split at h
  case isFalse => exact absurd h (by simp)
  next hq =>
  split at h
  · exact absurd h (by simp)
  next r h4 =>
  simp only [Option.some.injEq, Prod.mk.injEq] at h
  obtain ⟨-, hr⟩ := h
  subst hr
  have e1 : l1.length < l.length := dropLit_lt (by decide) h1
  have e2 : (l1.dropWhile isPySpace).length ≤ l1.length :=
    dropWhile_length_le _ _
  have e3 : cs.length + 1 ≤ (l1.dropWhile isPySpace).length := by
    have := dropLit_le h2; simpa using this
  have e5 : (cs.dropWhile isPySpace).length ≤ cs.length :=
    dropWhile_length_le _ _
  have e6 : l5.length ≤ (cs.dropWhile isPySpace).length := dropLit_le h3
  have e7 :
      (l5.drop (l5.takeWhile (fun d => d != '"')).length).length
        ≤ l5.length := by
    rw [List.length_drop]; omega
  have e8 :
      l6.length + 1 =
        (l5.drop (l5.takeWhile (fun d => d != '"')).length).length := by
    rw [hd]; simp
  have e9 : (l6.dropWhile isPySpace).length ≤ l6.length :=
    dropWhile_length_le _ _
  have e10 : r.length ≤ (l6.dropWhile isPySpace).length := dropLit_le h4
  omega

/-- Fuelled model of `re.sub` with the directive pattern: scan start
positions left to right; at a match, emit the replacement and resume
after the match (non-overlapping); otherwise copy one character. Each
step consumes one unit of fuel and at least one character
(`matchDirective_rest_length`), so fuel equal to the input length never
runs out (`subIncludesFuel_congr`). -/
def subIncludesFuel (repl : String → String) : Nat → List Char → List Char
  | 0, l => l
  | _ + 1, [] => []
  | fuel + 1, c :: cs =>
    match matchDirective (c :: cs) with
    | some (v, rest) => (repl v).data ++ subIncludesFuel repl fuel rest
    | none => c :: subIncludesFuel repl fuel cs

/-- Model of `re.sub(pattern, repl, ·)` over a character list. -/
def subIncludes (repl : String → String) (l : List Char) : List Char :=
  subIncludesFuel repl l.length l

theorem subIncludesFuel_congr (repl : String → String) :
    ∀ f1 f2 l, l.length ≤ f1 → l.length ≤ f2 →
      subIncludesFuel repl f1 l = subIncludesFuel repl f2 l := by
  intro f1
  induction f1 with
  | zero =>
    intro f2 l h1 h2
    have hl : l = [] := List.length_eq_zero.mp (Nat.le_zero.mp h1)
    subst hl
    cases f2 <;> rfl
  | succ k ih =>
    intro f2 l h1 h2
    cases l with
    | nil => cases f2 <;> rfl
    | cons c cs =>
      cases f2 with
      | zero => simp at h2
      | succ m =>
        show subIncludesFuel repl (k + 1) (c :: cs) =
          subIncludesFuel repl (m + 1) (c :: cs)
        unfold subIncludesFuel
        cases hm : matchDirective (c :: cs) with
        | some vr =>
          obtain ⟨v, rest⟩ := vr
          have hlt := matchDirective_rest_length hm
          simp only [List.length_cons] at h1 h2 hlt
          show (repl v).data ++ subIncludesFuel repl k rest =
            (repl v).data ++ subIncludesFuel repl m rest
          congr 1
          exact ih m rest (by omega) (by omega)
        | none =>
          simp only [List.length_cons] at h1 h2
          show c :: subIncludesFuel repl k cs = c :: subIncludesFuel repl m cs
          congr 1
          exact ih m cs (by omega) (by omega)

theorem subIncludes_nil (repl : String → String) : subIncludes repl [] = [] := rfl

theorem subIncludes_cons_match {repl : String → String} {c : Char}
    {cs : List Char} {v : String} {rest : List Char}
    (h : matchDirective (c :: cs) = some (v, rest)) :
    subIncludes repl (c :: cs) = (repl v).data ++ subIncludes repl rest := by
  have hlt := matchDirective_rest_length h
  simp only [List.length_cons] at hlt
  show subIncludesFuel repl (c :: cs).length (c :: cs) = _
  simp only [List.length_cons]
  unfold subIncludesFuel
  rw [h]
  show (repl v).data ++ subIncludesFuel repl cs.length rest =
    (repl v).data ++ subIncludesFuel repl rest.length rest
  congr 1
  exact subIncludesFuel_congr repl cs.length rest.length rest (by omega)
    (Nat.le_refl _)

theorem subIncludes_cons_nomatch {repl : String → String} {c : Char}
    {cs : List Char} (h : matchDirective (c :: cs) = none) :
    subIncludes repl (c :: cs) = c :: subIncludes repl cs := by
  show subIncludesFuel repl (c :: cs).length (c :: cs) = _
  simp only [List.length_cons]
  unfold subIncludesFuel
  rw [h]
  show c :: subIncludesFuel repl cs.length cs =
    c :: subIncludesFuel repl cs.length cs
  rfl

/-- Does any suffix of the input start a directive match? -/
def hasDirective : List Char → Bool
  | [] => false
  | c :: cs => (matchDirective (c :: cs)).isSome || hasDirective cs

theorem subIncludes_no_directive {repl : String → String} :
    ∀ {l : List Char}, hasDirective l = false → subIncludes repl l = l := by
  intro l
  induction l with
  | nil => intro; rfl
  | cons c cs ih =>
    intro h
    unfold hasDirective at h
    rw [Bool.or_eq_false_iff] at h
    obtain ⟨h1, h2⟩ := h
    have hnone : matchDirective (c :: cs) = none := by
      cases hm : matchDirective (c :: cs)
      · rfl
      · rw [hm] at h1; simp at h1
    rw [subIncludes_cons_nomatch hnone, ih h2]

/-- The filesystem and inherited-handler facilities `send_head` and
`handle_includes` observe, abstracted as pure oracles. `readUtf8 p` is the
result of opening `p`, reading it and decoding as UTF-8: `Except.ok` the
decoded text, or `Except.error` the exception text. -/
structure Env where
  isDir : String → Bool
  pathExists : String → Bool
  isFile : String → Bool
  openOk : String → Bool
  readUtf8 : String → Except String String
  guessType : String → String
  fileSize : String → Nat

/-- Model of `replace_include` from `SPAHTTPRequestHandler.handle_includes`
(src/serve.py lines 73-82), with the captured group as argument. -/
def replace_include (env : Env) (base_dir : String) (v : String) : String :=
  let include_path := osJoin base_dir (pyUnquote v)
  if env.pathExists include_path && env.isFile include_path then
    match env.readUtf8 include_path with
    | .ok s => s
    | .error e => "<!-- Error including " ++ include_path ++ ": " ++ e ++ " -->"
  else "<!-- File not found: " ++ include_path ++ " -->"

/-- The behavior of `replace_include` as a function of the already-built
candidate path, used to state that the candidate is exactly
`os.path.join(base_dir, unquote(value))`. -/
def includeAction (env : Env) (include_path : String) : String :=
  if env.pathExists include_path && env.isFile include_path then
    match env.readUtf8 include_path with
    | .ok s => s
    | .error e => "<!-- Error including " ++ include_path ++ ": " ++ e ++ " -->"
  else "<!-- File not found: " ++ include_path ++ " -->"

/-- Model of `SPAHTTPRequestHandler.handle_includes` (src/serve.py lines 67-84). -/
def handle_includes (env : Env) (base_dir : String) (content : String) : String :=
  String.mk (subIncludes (replace_include env base_dir) content.data)

/-- Outcome of the path-resolution portion of `send_head`
(src/serve.py lines 15-38). -/
inductive Resolution where
  | resolved (path : String)
  | deferSuper
  | notFound404
deriving DecidableEq

/-- Path resolution of `send_head` (src/serve.py lines 15-38):
directory-index probing, then the existence check with SPA fallback.
`translated` is `self.translate_path(self.path)` (delegated to the
external collaborator), `requestPath` is the raw `self.path`, and `cwd`
is `os.getcwd()`. `deferSuper` stands for `return super().send_head()`,
`notFound404` for `self.send_error(404, "File not found"); return None`. -/
def resolvePath (env : Env) (cwd requestPath translated : String) : Resolution :=
  let step1 : Option String :=
    if env.isDir translated then
      if env.pathExists (osJoin translated "index.html") then
        some (osJoin translated "index.html")
      else if env.pathExists (osJoin translated "index.htm") then
        some (osJoin translated "index.htm")
      else none
    else some translated
  match step1 with
  | none => .deferSuper
  | some path =>
    if env.pathExists path then .resolved path
    else if strEndsWith requestPath ".html" then
      if env.pathExists (osJoin cwd "index.html") then
        .resolved (osJoin cwd "index.html")
      else .notFound404
    else .deferSuper

/-- Result of `send_head`: `ok` is the HTML branch (status, content type,
`Content-Length` header value, expanded body), `okFile` the non-HTML
branch (length from `fstat`, body streamed from the file), `httpError`
a `send_error` call, `deferSuper` delegation to the base handler, and
`raised` an exception propagating out of `send_head` uncaught. -/
inductive SendHeadResult where
  | ok (status : Nat) (ctype : String) (contentLength : Nat) (body : String)
  | okFile (status : Nat) (ctype : String) (contentLength : Nat) (path : String)
  | httpError (status : Nat) (msg : String)
  | deferSuper
  | raised (msg : String)
deriving DecidableEq

/-- Model of `SPAHTTPRequestHandler.send_head` (src/serve.py lines 13-65). -/
def send_head (env : Env) (cwd requestPath translated : String) : SendHeadResult :=
  match resolvePath env cwd requestPath translated with
  | .deferSuper => .deferSuper
  | .notFound404 => .httpError 404 "File not found"
  | .resolved path =>
    let ctype := env.guessType path
    if env.openOk path then
      if ctype = "text/html" then
        match env.readUtf8 path with
        | .error e => .raised e
        | .ok content =>
          let expanded := handle_includes env (dirname path) content
          .ok 200 ctype expanded.utf8ByteSize expanded
      else .okFile 200 ctype (env.fileSize path) path
    else .httpError 404 "File not found"

theorem subIncludes_match_any {repl : String → String} {l : List Char}
    {v : String} {rest : List Char} (h : matchDirective l = some (v, rest)) :
    subIncludes repl l = (repl v).data ++ subIncludes repl rest := by
  cases l with
  | nil => exact Option.noConfusion h
  | cons c cs => exact subIncludes_cons_match h

theorem dropLit_append (pre t : List Char) : dropLit pre (pre ++ t) = some t := by
  induction pre with
  | nil => rfl
  | cons p ps ih => simp [dropLit, ih]

theorem dropWhile_cons_neg {c : Char} (hc : isPySpace c = false)
    (t : List Char) : List.dropWhile isPySpace (c :: t) = c :: t := by
  simp [List.dropWhile, hc]

theorem dropWhile_space_append {ws : List Char}
    (h : ∀ c ∈ ws, isPySpace c = true) (t : List Char) :
    List.dropWhile isPySpace (ws ++ t) = List.dropWhile isPySpace t := by
  induction ws with
  | nil => rfl
  | cons w ws ih =>
    have hw : isPySpace w = true := h w (by simp)
    simp only [List.cons_append, List.dropWhile, hw]
    exact ih (fun c hc => h c (by simp [hc]))

theorem dropWhile_include (Z : List Char) :
    List.dropWhile isPySpace ("#include".data ++ Z) = "#include".data ++ Z := by
  show List.dropWhile isPySpace ('#' :: ("include".data ++ Z)) = _
  exact dropWhile_cons_neg (by decide) _

theorem dropWhile_virtual (Z : List Char) :
    List.dropWhile isPySpace ("virtual=\"".data ++ Z) = "virtual=\"".data ++ Z := by
  show List.dropWhile isPySpace ('v' :: ("irtual=\"".data ++ Z)) = _
  exact dropWhile_cons_neg (by decide) _

theorem dropWhile_closer (Z : List Char) :
    List.dropWhile isPySpace ("-->".data ++ Z) = "-->".data ++ Z := by
  show List.dropWhile isPySpace ('-' :: ("->".data ++ Z)) = _
  exact dropWhile_cons_neg (by decide) _

theorem takeWhile_noquote {p : List Char} (h : ∀ c ∈ p, c ≠ '"')
    (t : List Char) :
    List.takeWhile (fun d => d != '"') (p ++ '"' :: t) = p := by
  induction p with
  | nil => simp [List.takeWhile]
  | cons a as ih =>
    have ha : (a != '"') = true := by
      simpa [bne_iff_ne] using h a (by simp)
    show List.takeWhile (fun d => d != '"') (a :: (as ++ '"' :: t)) = a :: as
    rw [List.takeWhile_cons, if_pos ha, ih (fun c hc => h c (by simp [hc]))]

/-- The general shape of a directive as matched by the regex: `<!--`,
optional whitespace `ws1`, `#include`, whitespace `ws2`, `virtual="`,
the path `p`, `"`, optional whitespace `ws3`, `-->`. -/
def mkDirective (ws1 ws2 ws3 : List Char) (p : String) : List Char :=
  "<!--".data ++ ws1 ++ "#include".data ++ ws2 ++ "virtual=\"".data ++
    p.data ++ '"' :: (ws3 ++ "-->".data)

theorem matchDirective_mk {ws1 ws2 ws3 : List Char} {p : String}
    (rest : List Char)
    (h1 : ∀ c ∈ ws1, isPySpace c = true)
    (h2 : ws2 ≠ []) (h2' : ∀ c ∈ ws2, isPySpace c = true)
    (h3 : ∀ c ∈ ws3, isPySpace c = true)
    (hp1 : p.data ≠ []) (hp2 : ∀ c ∈ p.data, c ≠ '"') :
    matchDirective (mkDirective ws1 ws2 ws3 p ++ rest) = some (p, rest) := by
  cases ws2 with
  | nil => exact absurd rfl h2
  | cons w ws2' =>
    have hw : isPySpace w = true := h2' w (by simp)
    have e0 : mkDirective ws1 (w :: ws2') ws3 p ++ rest =
        "<!--".data ++ (ws1 ++ ("#include".data ++ (w :: (ws2' ++
          ("virtual=\"".data ++ (p.data ++ ('"' :: (ws3 ++
            ("-->".data ++ rest))))))))) := by
      simp [mkDirective]
    rw [e0]
    unfold matchDirective
    rw [dropLit_append]
    dsimp only
    rw [dropWhile_space_append h1, dropWhile_include, dropLit_append]
    dsimp only
    rw [if_pos hw]
    rw [dropWhile_space_append (fun c hc => h2' c (by simp [hc])),
      dropWhile_virtual, dropLit_append]
    dsimp only
    rw [takeWhile_noquote hp2]
    rw [if_neg hp1]
    rw [List.drop_left]
    dsimp only
    rw [if_pos rfl]
    rw [dropWhile_space_append h3, dropWhile_closer, dropLit_append]

theorem resolvePath_dir_html {env : Env} {cwd rp tr : String}
    (hd : env.isDir tr = true)
    (h1 : env.pathExists (osJoin tr "index.html") = true) :
    resolvePath env cwd rp tr = .resolved (osJoin tr "index.html") := by
  simp only [resolvePath]
  rw [if_pos hd, if_pos h1]
  dsimp only
  rw [if_pos h1]

theorem resolvePath_dir_htm {env : Env} {cwd rp tr : String}
    (hd : env.isDir tr = true)
    (h1 : env.pathExists (osJoin tr "index.html") = false)
    (h2 : env.pathExists (osJoin tr "index.htm") = true) :
    resolvePath env cwd rp tr = .resolved (osJoin tr "index.htm") := by
  simp only [resolvePath]
  rw [if_pos hd, if_neg (by simp [h1]), if_pos h2]
  dsimp only
  rw [if_pos h2]

theorem resolvePath_dir_none {env : Env} {cwd rp tr : String}
    (hd : env.isDir tr = true)
    (h1 : env.pathExists (osJoin tr "index.html") = false)
    (h2 : env.pathExists (osJoin tr "index.htm") = false) :
    resolvePath env cwd rp tr = .deferSuper := by
  simp only [resolvePath]
  rw [if_pos hd, if_neg (by simp [h1]), if_neg (by simp [h2])]

theorem resolvePath_file {env : Env} {cwd rp tr : String}
    (hd : env.isDir tr = false) (he : env.pathExists tr = true) :
    resolvePath env cwd rp tr = .resolved tr := by
  simp only [resolvePath]
  rw [if_neg (by simp [hd])]
  dsimp only
  rw [if_pos he]

theorem resolvePath_missing_html {env : Env} {cwd rp tr : String}
    (hd : env.isDir tr = false) (he : env.pathExists tr = false)
    (hh : strEndsWith rp ".html" = true) :
    resolvePath env cwd rp tr =
      if env.pathExists (osJoin cwd "index.html") then
        .resolved (osJoin cwd "index.html")
      else .notFound404 := by
  simp only [resolvePath]
  rw [if_neg (by simp [hd])]
  dsimp only
  rw [if_neg (by simp [he]), if_pos hh]

theorem resolvePath_missing_other {env : Env} {cwd rp tr : String}
    (hd : env.isDir tr = false) (he : env.pathExists tr = false)
    (hh : strEndsWith rp ".html" = false) :
    resolvePath env cwd rp tr = .deferSuper := by
  simp only [resolvePath]
  rw [if_neg (by simp [hd])]
  dsimp only
  rw [if_neg (by simp [he]), if_neg (by simp [hh])]

theorem send_head_defer {env : Env} {cwd rp tr : String}
    (h : resolvePath env cwd rp tr = .deferSuper) :
    send_head env cwd rp tr = .deferSuper := by
  unfold send_head
  rw [h]

theorem send_head_notFound {env : Env} {cwd rp tr : String}
    (h : resolvePath env cwd rp tr = .notFound404) :
    send_head env cwd rp tr = .httpError 404 "File not found" := by
  unfold send_head
  rw [h]

theorem send_head_openko {env : Env} {cwd rp tr p : String}
    (h : resolvePath env cwd rp tr = .resolved p)
    (ho : env.openOk p = false) :
    send_head env cwd rp tr = .httpError 404 "File not found" := by
  unfold send_head
  rw [h]
  dsimp only
  rw [if_neg (by simp [ho])]

theorem send_head_html {env : Env} {cwd rp tr p c : String}
    (h : resolvePath env cwd rp tr = .resolved p)
    (ho : env.openOk p = true)
    (ht : env.guessType p = "text/html")
    (hc : env.readUtf8 p = Except.ok c) :
    send_head env cwd rp tr =
      .ok 200 "text/html"
        (handle_includes env (dirname p) c).utf8ByteSize
        (handle_includes env (dirname p) c) := by
  unfold send_head
  rw [h]
  dsimp only
  rw [ht, if_pos ho, if_pos rfl, hc]

theorem send_head_raised {env : Env} {cwd rp tr p e : String}
    (h : resolvePath env cwd rp tr = .resolved p)
    (ho : env.openOk p = true)
    (ht : env.guessType p = "text/html")
    (he : env.readUtf8 p = Except.error e) :
    send_head env cwd rp tr = .raised e := by
  unfold send_head
  rw [h]
  dsimp only
  rw [ht, if_pos ho, if_pos rfl, he]

theorem send_head_nonhtml {env : Env} {cwd rp tr p : String}
    (h : resolvePath env cwd rp tr = .resolved p)
    (ho : env.openOk p = true)
    (ht : env.guessType p ≠ "text/html") :
    send_head env cwd rp tr =
      .okFile 200 (env.guessType p) (env.fileSize p) p := by
  unfold send_head
  rw [h]
  dsimp only
  rw [if_pos ho, if_neg ht]

/-- A site with root directory `/srv/www` containing `index.html`
(with one include directive) and `nav.html`, and a process working
directory `/cwd` holding an SPA fallback `index.html`. -/
def envMain : Env where
  isDir := fun p => p == "/srv/www"
  pathExists := fun p =>
    p == "/srv/www" || p == "/srv/www/index.html" ||
      p == "/srv/www/nav.html" || p == "/cwd/index.html"
  isFile := fun p =>
    p == "/srv/www/index.html" || p == "/srv/www/nav.html" ||
      p == "/cwd/index.html"
  openOk := fun _ => true
  readUtf8 := fun p =>
    if p == "/srv/www/index.html" then
      Except.ok "<html><!-- #include virtual=\"nav.html\" --></html>"
    else if p == "/srv/www/nav.html" then Except.ok "<nav>Home</nav>"
    else if p == "/cwd/index.html" then Except.ok "SPA"
    else Except.error "missing"
  guessType := fun p =>
    if strEndsWith p ".html" || strEndsWith p ".htm" then "text/html"
    else "application/octet-stream"
  fileSize := fun _ => 7

/-- A filesystem where the translated path `/srv/app.html` is a directory
containing no index file, while the working directory `/cwd` holds an
`index.html`. -/
def envC1 : Env where
  isDir := fun p => p == "/srv/app.html"
  pathExists := fun p => p == "/srv/app.html" || p == "/cwd/index.html"
  isFile := fun p => p == "/cwd/index.html"
  openOk := fun _ => true
  readUtf8 := fun p =>
    if p == "/cwd/index.html" then Except.ok "SPA" else Except.error "missing"
  guessType := fun p =>
    if strEndsWith p ".html" then "text/html" else "application/octet-stream"
  fileSize := fun _ => 3

/-- A filesystem where only the SPA fallback `/cwd/index.html` exists. -/
def envSpa : Env where
  isDir := fun _ => false
  pathExists := fun p => p == "/cwd/index.html"
  isFile := fun p => p == "/cwd/index.html"
  openOk := fun _ => true
  readUtf8 := fun p =>
    if p == "/cwd/index.html" then Except.ok "hello" else Except.error "missing"
  guessType := fun p =>
    if strEndsWith p ".html" then "text/html" else "application/octet-stream"
  fileSize := fun _ => 5

/-- A filesystem with one readable include file `/srv/inner.html` whose
content is itself an include directive. -/
def envC2 : Env where
  isDir := fun _ => false
  pathExists := fun p => p == "/srv/inner.html"
  isFile := fun p => p == "/srv/inner.html"
  openOk := fun _ => true
  readUtf8 := fun p =>
    if p == "/srv/inner.html" then
      Except.ok "<!-- #include virtual=\"deep.html\" -->"
    else Except.error "missing"
  guessType := fun _ => "text/html"
  fileSize := fun _ => 0

/-- A filesystem with one file `/b/bad.html` that exists but whose read
raises the exception "boom". -/
def envC3 : Env where
  isDir := fun _ => false
  pathExists := fun p => p == "/b/bad.html"
  isFile := fun p => p == "/b/bad.html"
  openOk := fun _ => true
  readUtf8 := fun _ => Except.error "boom"
  guessType := fun _ => "text/html"
  fileSize := fun _ => 0

/-- Directories `/a` (both index files), `/b` (only `index.htm`),
`/c` (no index file). -/
def envC4 : Env where
  isDir := fun p => p == "/a" || p == "/b" || p == "/c"
  pathExists := fun p =>
    p == "/a" || p == "/b" || p == "/c" || p == "/a/index.html" ||
      p == "/a/index.htm" || p == "/b/index.htm"
  isFile := fun p =>
    p == "/a/index.html" || p == "/a/index.htm" || p == "/b/index.htm"
  openOk := fun _ => true
  readUtf8 := fun _ => Except.error "x"
  guessType := fun _ => "text/html"
  fileSize := fun _ => 0

/-- A filesystem where the requested non-HTML file is missing although the
working directory fallback `/cwd/index.html` is present. -/
def envC5 : Env where
  isDir := fun _ => false
  pathExists := fun p => p == "/cwd/index.html"
  isFile := fun p => p == "/cwd/index.html"
  openOk := fun _ => true
  readUtf8 := fun _ => Except.error "x"
  guessType := fun _ => "application/json"
  fileSize := fun _ => 0

/-- A filesystem where `/srv/bad.html` exists but holds bytes that are not
valid UTF-8, so the read raises a decode error. -/
def envC10 : Env where
  isDir := fun _ => false
  pathExists := fun p => p == "/srv/bad.html"
  isFile := fun p => p == "/srv/bad.html"
  openOk := fun _ => true
  readUtf8 := fun _ => Except.error "UnicodeDecodeError"
  guessType := fun p => if strEndsWith p ".html" then "text/html" else "text/plain"
  fileSize := fun _ => 0

/-- C1 (amended): for every request path ending in ".html" whose translated
path is not a directory and does not exist, if `index.html` exists in the
process's current working directory it becomes the resolved file (and is
served with status 200 and the expanded content once it can be opened and,
being HTML, read and decoded); if it does not exist, the outcome is a 404
with message "File not found". The original claim fails when the
translated path is a directory (see the counterexample). -/
theorem C1_spa_fallback (env : Env) (cwd rp tr : String)
    (hh : strEndsWith rp ".html" = true)
    (hnd : env.isDir tr = false)
    (hne : env.pathExists tr = false) :
    (env.pathExists (osJoin cwd "index.html") = false →
      resolvePath env cwd rp tr = .notFound404 ∧
      send_head env cwd rp tr = .httpError 404 "File not found") ∧
    (env.pathExists (osJoin cwd "index.html") = true →
      resolvePath env cwd rp tr = .resolved (osJoin cwd "index.html") ∧
      (env.openOk (osJoin cwd "index.html") = true →
        env.guessType (osJoin cwd "index.html") = "text/html" →
        ∀ c, env.readUtf8 (osJoin cwd "index.html") = Except.ok c →
        send_head env cwd rp tr = .ok 200 "text/html"
          (handle_includes env (dirname (osJoin cwd "index.html")) c).utf8ByteSize
          (handle_includes env (dirname (osJoin cwd "index.html")) c))) := by
  have hres := @resolvePath_missing_html env cwd rp tr hnd hne hh
  constructor
  · intro hno
    have h404 : resolvePath env cwd rp tr = .notFound404 := by
      rw [hres, if_neg (by simp [hno])]
    exact ⟨h404, send_head_notFound h404⟩
  · intro hyes
    have hr : resolvePath env cwd rp tr = .resolved (osJoin cwd "index.html") := by
      rw [hres, if_pos hyes]
    exact ⟨hr, fun ho ht c hc => send_head_html hr ho ht hc⟩

/-- C1 witness: requesting `/missing.html` against `envSpa` serves the
expanded content of `/cwd/index.html` with status 200. -/
theorem C1_spa_fallback_witness :
    send_head envSpa "/cwd" "/missing.html" "/root/missing.html" =
      .ok 200 "text/html" 5 "hello" := by
  have h := (C1_spa_fallback envSpa "/cwd" "/missing.html" "/root/missing.html"
    (by decide) (by decide) (by decide)).2 (by decide)
  have h2 := h.2 (by decide) (by decide) "hello" (by decide)
  rw [h2]
  decide

/-- C1 counterexample: the request path `/app.html` ends in ".html", its
translated path is a directory with no index file (so no existing file is
resolved), and the working-directory `index.html` exists — yet `send_head`
delegates to the base handler instead of serving the fallback or a 404. -/
theorem C1_counterexample :
    strEndsWith "/app.html" ".html" = true ∧
    envC1.pathExists (osJoin "/cwd" "index.html") = true ∧
    envC1.isDir "/srv/app.html" = true ∧
    envC1.isFile "/srv/app.html" = false ∧
    send_head envC1 "/cwd" "/app.html" "/srv/app.html" = .deferSuper ∧
    send_head envC1 "/cwd" "/app.html" "/srv/app.html" ≠
      .httpError 404 "File not found" ∧
    send_head envC1 "/cwd" "/app.html" "/srv/app.html" ≠
      .ok 200 "text/html" 3 "SPA" := by
  decide

/-- C2: include expansion is single-pass and not recursive. (1) A document
with no directive match anywhere is returned byte-for-byte. (2) A matched
directive at the scan position whose file reads successfully is replaced by
the file content verbatim — even when that content itself contains
directives — and scanning resumes after the directive, never inside the
inserted content. (3) A position where no match starts copies its
character unchanged. -/
theorem C2_single_pass :
    (∀ (env : Env) (bd doc : String), hasDirective doc.data = false →
      handle_includes env bd doc = doc) ∧
    (∀ (env : Env) (bd : String) (l : List Char) (v : String)
      (rest : List Char) (c : String),
      matchDirective l = some (v, rest) →
      (env.pathExists (osJoin bd (pyUnquote v)) &&
        env.isFile (osJoin bd (pyUnquote v))) = true →
      env.readUtf8 (osJoin bd (pyUnquote v)) = Except.ok c →
      (handle_includes env bd (String.mk l)).data =
        c.data ++ (handle_includes env bd (String.mk rest)).data) ∧
    (∀ (env : Env) (bd : String) (ch : Char) (cs : List Char),
      matchDirective (ch :: cs) = none →
      (handle_includes env bd (String.mk (ch :: cs))).data =
        ch :: (handle_includes env bd (String.mk cs)).data) := by
  refine ⟨fun env bd doc h => ?_, fun env bd l v rest c hm hex hr => ?_,
    fun env bd ch cs hm => ?_⟩
  · unfold handle_includes
    rw [subIncludes_no_directive h]
  · have hrepl : replace_include env bd v = c := by
      unfold replace_include
      dsimp only
      rw [if_pos hex, hr]
    show subIncludes (replace_include env bd) l =
      c.data ++ subIncludes (replace_include env bd) rest
    rw [subIncludes_match_any hm, hrepl]
  · show subIncludes (replace_include env bd) (ch :: cs) =
      ch :: subIncludes (replace_include env bd) cs
    exact subIncludes_cons_nomatch hm

/-- C2 witness: a directive whose included file itself contains a
directive is replaced by that content verbatim, with the inner directive
left as literal text; plain text passes through unchanged. -/
theorem C2_single_pass_witness :
    handle_includes envC2 "/srv" "plain text" = "plain text" ∧
    (handle_includes envC2 "/srv"
        "<!-- #include virtual=\"inner.html\" -->Z").data =
      "<!-- #include virtual=\"deep.html\" -->".data ++
        (handle_includes envC2 "/srv" "Z").data ∧
    (handle_includes envC2 "/srv" "Zab").data =
      'Z' :: (handle_includes envC2 "/srv" "ab").data := by
  refine ⟨C2_single_pass.1 envC2 "/srv" "plain text" (by decide), ?_, ?_⟩
  · exact C2_single_pass.2.1 envC2 "/srv"
      ("<!-- #include virtual=\"inner.html\" -->Z".data) "inner.html"
      ("Z".data) "<!-- #include virtual=\"deep.html\" -->"
      (by decide) (by decide) (by decide)
  · exact C2_single_pass.2.2 envC2 "/srv" 'Z' ("ab".data) (by decide)

/-- C3: the include expander never aborts. A candidate that does not pass
the exists-and-is-file check is replaced by the inline comment
"<!-- File not found: path -->"; a candidate that passes it but whose read
raises `e` is replaced by "<!-- Error including path: e -->". -/
theorem C3_error_comments (env : Env) (bd v : String) :
    ((env.pathExists (osJoin bd (pyUnquote v)) &&
        env.isFile (osJoin bd (pyUnquote v))) = false →
      replace_include env bd v =
        "<!-- File not found: " ++ osJoin bd (pyUnquote v) ++ " -->") ∧
    (∀ e, (env.pathExists (osJoin bd (pyUnquote v)) &&
        env.isFile (osJoin bd (pyUnquote v))) = true →
      env.readUtf8 (osJoin bd (pyUnquote v)) = Except.error e →
      replace_include env bd v =
        "<!-- Error including " ++ osJoin bd (pyUnquote v) ++ ": " ++ e ++
          " -->") := by
  constructor
  · intro hno
    unfold replace_include
    dsimp only
    rw [if_neg (by simp [hno])]
  · intro e hex he
    unfold replace_include
    dsimp only
    rw [if_pos hex, he]

/-- C3 witness: a missing candidate yields the File-not-found comment, a
failing read yields the Error-including comment. -/
theorem C3_error_comments_witness :
    replace_include envC3 "/b" "missing.html" =
      "<!-- File not found: /b/missing.html -->" ∧
    replace_include envC3 "/b" "bad.html" =
      "<!-- Error including /b/bad.html: boom -->" := by
  constructor
  · have h := (C3_error_comments envC3 "/b" "missing.html").1 (by decide)
    rw [h]
    decide
  · have h := (C3_error_comments envC3 "/b" "bad.html").2 "boom"
      (by decide) (by decide)
    rw [h]
    decide

/-- C4: for a directory request, when `index.html` exists in the directory
it is selected (regardless of `index.htm`); when only `index.htm` exists
it is selected; when neither exists, resolution is delegated to the
default directory handling of the base class. -/
theorem C4_directory_index (env : Env) (cwd rp tr : String)
    (hd : env.isDir tr = true) :
    (env.pathExists (osJoin tr "index.html") = true →
      resolvePath env cwd rp tr = .resolved (osJoin tr "index.html")) ∧
    (env.pathExists (osJoin tr "index.html") = false →
      env.pathExists (osJoin tr "index.htm") = true →
      resolvePath env cwd rp tr = .resolved (osJoin tr "index.htm")) ∧
    (env.pathExists (osJoin tr "index.html") = false →
      env.pathExists (osJoin tr "index.htm") = false →
      resolvePath env cwd rp tr = .deferSuper) :=
  ⟨fun h1 => resolvePath_dir_html hd h1,
   fun h1 h2 => resolvePath_dir_htm hd h1 h2,
   fun h1 h2 => resolvePath_dir_none hd h1 h2⟩

/-- C4 witness: `/a` (both index files) resolves to `index.html`, `/b`
(only `index.htm`) to `index.htm`, `/c` (neither) defers to the base
handler. -/
theorem C4_directory_index_witness :
    resolvePath envC4 "/cwd" "/" "/a" = .resolved "/a/index.html" ∧
    resolvePath envC4 "/cwd" "/" "/b" = .resolved "/b/index.htm" ∧
    resolvePath envC4 "/cwd" "/" "/c" = .deferSuper := by
  refine ⟨?_, ?_, ?_⟩
  · have h := (C4_directory_index envC4 "/cwd" "/" "/a" (by decide)).1
      (by decide)
    rw [h]
    decide
  · have h := (C4_directory_index envC4 "/cwd" "/" "/b" (by decide)).2.1
      (by decide) (by decide)
    rw [h]
    decide
  · exact (C4_directory_index envC4 "/cwd" "/" "/c" (by decide)).2.2
      (by decide) (by decide)

/-- C5: for a request path not ending in ".html", a missing translated
path is delegated to the default handling (never the SPA fallback and
never the 404 branch of the core); moreover the core never produces its
404 for such a path, and any file it does resolve exists. -/
theorem C5_no_spa_for_nonhtml (env : Env) (cwd rp tr : String)
    (hh : strEndsWith rp ".html" = false) :
    (env.isDir tr = false → env.pathExists tr = false →
      resolvePath env cwd rp tr = .deferSuper ∧
      send_head env cwd rp tr = .deferSuper) ∧
    resolvePath env cwd rp tr ≠ .notFound404 ∧
    (∀ p, resolvePath env cwd rp tr = .resolved p →
      env.pathExists p = true) := by
  by_cases hd : env.isDir tr = true
  · by_cases h1 : env.pathExists (osJoin tr "index.html") = true
    · have hres := @resolvePath_dir_html env cwd rp tr hd h1
      refine ⟨fun hnd _ => absurd hd (by simp [hnd]), by simp [hres],
        fun p hp => ?_⟩
      rw [hres] at hp
      injection hp with hq
      rw [← hq]
      exact h1
    · have h1f : env.pathExists (osJoin tr "index.html") = false := by
        simpa using h1
      by_cases h2 : env.pathExists (osJoin tr "index.htm") = true
      · have hres := @resolvePath_dir_htm env cwd rp tr hd h1f h2
        refine ⟨fun hnd _ => absurd hd (by simp [hnd]), by simp [hres],
          fun p hp => ?_⟩
        rw [hres] at hp
        injection hp with hq
        rw [← hq]
        exact h2
      · have h2f : env.pathExists (osJoin tr "index.htm") = false := by
          simpa using h2
        have hres := @resolvePath_dir_none env cwd rp tr hd h1f h2f
        refine ⟨fun hnd _ => absurd hd (by simp [hnd]), by simp [hres],
          fun p hp => ?_⟩
        rw [hres] at hp
        simp at hp
  · have hdf : env.isDir tr = false := by simpa using hd
    by_cases he : env.pathExists tr = true
    · have hres := @resolvePath_file env cwd rp tr hdf he
      refine ⟨fun _ hne => absurd he (by simp [hne]), by simp [hres],
        fun p hp => ?_⟩
      rw [hres] at hp
      injection hp with hq
      rw [← hq]
      exact he
    · have hef : env.pathExists tr = false := by simpa using he
      have hres := @resolvePath_missing_other env cwd rp tr hdf hef hh
      refine ⟨fun _ _ => ⟨hres, send_head_defer hres⟩, by simp [hres],
        fun p hp => ?_⟩
      rw [hres] at hp
      simp at hp

/-- C5 witness: requesting `/data.json` with no such file defers to the
base handler even though the fallback `/cwd/index.html` exists. -/
theorem C5_no_spa_for_nonhtml_witness :
    resolvePath envC5 "/cwd" "/data.json" "/srv/data.json" = .deferSuper ∧
    send_head envC5 "/cwd" "/data.json" "/srv/data.json" = .deferSuper :=
  (C5_no_spa_for_nonhtml envC5 "/cwd" "/data.json" "/srv/data.json"
    (by decide)).1 (by decide) (by decide)

/-- C6: every HTML response of `send_head` carries a Content-Length equal
to the UTF-8 byte length of its body, and that body is the fully
include-expanded content of the resolved file — headers are computed from
the final body, never from partial content. -/
theorem C6_content_length (env : Env) (cwd rp tr : String)
    (st : Nat) (ct : String) (len : Nat) (body : String)
    (h : send_head env cwd rp tr = .ok st ct len body) :
    len = body.utf8ByteSize ∧
    ∃ p c, resolvePath env cwd rp tr = .resolved p ∧
      env.readUtf8 p = Except.ok c ∧
      body = handle_includes env (dirname p) c := by
  unfold send_head at h
  cases hres : resolvePath env cwd rp tr with
  | deferSuper => rw [hres] at h; exact absurd h (by simp)
  | notFound404 => rw [hres] at h; exact absurd h (by simp)
  | resolved p =>
    rw [hres] at h
    dsimp only at h
    by_cases ho : env.openOk p = true
    · rw [if_pos ho] at h
      by_cases ht : env.guessType p = "text/html"
      · rw [if_pos ht] at h
        cases hc : env.readUtf8 p with
        | error e => rw [hc] at h; exact absurd h (by simp)
        | ok c =>
          rw [hc] at h
          dsimp only at h
          injection h with h1 h2 h3 h4
          refine ⟨?_, p, c, rfl, hc, h4.symm⟩
          rw [← h3, ← h4]
      · rw [if_neg ht] at h
        exact absurd h (by simp)
    · rw [if_neg ho] at h
      exact absurd h (by simp)

/-- C6 witness: the example site serves `/` (directory, `index.html` with
one include) as a 200 whose Content-Length 28 equals the byte length of
the expanded body. -/
theorem C6_content_length_witness :
    (28 : Nat) = ("<html><nav>Home</nav></html>" : String).utf8ByteSize :=
  (C6_content_length envMain "/cwd" "/" "/srv/www" 200 "text/html" 28
    "<html><nav>Home</nav></html>" (by decide)).1

/-- C7: resolution and expansion are deterministic and idempotent —
they are functions of the request inputs and the observed filesystem
alone, so two runs against environments that observe identically (an
unchanged filesystem) return identical outcomes and byte-identical
output. -/
theorem C7_idempotent (e1 e2 : Env) (cwd rp tr bd s : String)
    (h1 : e1.isDir = e2.isDir) (h2 : e1.pathExists = e2.pathExists)
    (h3 : e1.isFile = e2.isFile) (h4 : e1.openOk = e2.openOk)
    (h5 : e1.readUtf8 = e2.readUtf8) (h6 : e1.guessType = e2.guessType)
    (h7 : e1.fileSize = e2.fileSize) :
    resolvePath e1 cwd rp tr = resolvePath e2 cwd rp tr ∧
    handle_includes e1 bd s = handle_includes e2 bd s ∧
    send_head e1 cwd rp tr = send_head e2 cwd rp tr := by
  obtain ⟨a1, a2, a3, a4, a5, a6, a7⟩ := e1
  obtain ⟨b1, b2, b3, b4, b5, b6, b7⟩ := e2
  have g1 : a1 = b1 := h1
  have g2 : a2 = b2 := h2
  have g3 : a3 = b3 := h3
  have g4 : a4 = b4 := h4
  have g5 : a5 = b5 := h5
  have g6 : a6 = b6 := h6
  have g7 : a7 = b7 := h7
  subst g1 g2 g3 g4 g5 g6 g7
  exact ⟨rfl, rfl, rfl⟩

/-- C7 witness: re-running the same request against the same filesystem
is byte-identical. -/
theorem C7_idempotent_witness :
    resolvePath envMain "/cwd" "/" "/srv/www" =
      resolvePath envMain "/cwd" "/" "/srv/www" ∧
    handle_includes envMain "/srv/www" "x" =
      handle_includes envMain "/srv/www" "x" ∧
    send_head envMain "/cwd" "/" "/srv/www" =
      send_head envMain "/cwd" "/" "/srv/www" :=
  C7_idempotent envMain envMain "/cwd" "/" "/srv/www" "/srv/www" "x"
    rfl rfl rfl rfl rfl rfl rfl

/-- C8 counterexample: the pattern requires at least one whitespace
character after `#include` (`\s+`) and a nonempty PATH (`[^"]+`), so a
directive with no whitespace around `#include`, or with an empty PATH, is
not recognized: the expander leaves both as literal text. -/
theorem C8_counterexample :
    matchDirective ("<!--#includevirtual=\"x\"-->".data) = none ∧
    matchDirective ("<!-- #include virtual=\"\" -->".data) = none ∧
    handle_includes envMain "/srv/www" "<!-- #include virtual=\"\" -->" =
      "<!-- #include virtual=\"\" -->" ∧
    handle_includes envMain "/srv/www" "<!--#includevirtual=\"nav.html\"-->" =
      "<!--#includevirtual=\"nav.html\"-->" := by
  decide

/-- C8 (amended): every occurrence of `<!--` optional whitespace
`#include` at-least-one whitespace `virtual="PATH"` optional whitespace
`-->`, with PATH a nonempty sequence of characters not containing a double
quote, is recognized at the scan position and expanded by the substitution
scan, which then resumes after the directive. -/
theorem C8_directive_recognized (repl : String → String)
    (ws1 ws2 ws3 : List Char) (p : String) (rest : List Char)
    (h1 : ∀ c ∈ ws1, isPySpace c = true)
    (h2 : ws2 ≠ []) (h2' : ∀ c ∈ ws2, isPySpace c = true)
    (h3 : ∀ c ∈ ws3, isPySpace c = true)
    (hp1 : p.data ≠ []) (hp2 : ∀ c ∈ p.data, c ≠ '"') :
    matchDirective (mkDirective ws1 ws2 ws3 p ++ rest) = some (p, rest) ∧
    subIncludes repl (mkDirective ws1 ws2 ws3 p ++ rest) =
      (repl p).data ++ subIncludes repl rest := by
  have hm := matchDirective_mk rest h1 h2 h2' h3 hp1 hp2
  exact ⟨hm, subIncludes_match_any hm⟩

/-- C8 witness: a concrete directive with one space in each slot and path
`nav.html` is recognized and substituted. -/
theorem C8_directive_recognized_witness :
    matchDirective (mkDirective [' '] [' '] [' '] "nav.html" ++ "Z".data) =
      some ("nav.html", "Z".data) ∧
    subIncludes (fun v => "[" ++ v ++ "]")
        (mkDirective [' '] [' '] [' '] "nav.html" ++ "Z".data) =
      "[nav.html]".data ++
        subIncludes (fun v => "[" ++ v ++ "]") ("Z".data) := by
  have h := C8_directive_recognized (fun v => "[" ++ v ++ "]")
    [' '] [' '] [' '] "nav.html" ("Z".data) (by decide) (by decide)
    (by decide) (by decide) (by decide) (by decide)
  exact ⟨h.1, h.2⟩

/-- C9: for every value of the `virtual` attribute, the candidate path
examined and reported by `replace_include` is exactly the URL-decoded
value joined (os.path.join) with the including file's directory, and the
directive's outcome depends on the value only through that candidate. -/
theorem C9_candidate_join_unquote (env : Env) (bd v : String) :
    replace_include env bd v = includeAction env (osJoin bd (pyUnquote v)) :=
  rfl

/-- C10: when the resolved top-level file is HTML but reading/decoding it
raises, the exception propagates out of `send_head` uncaught: the result
is neither the 404 branch nor any 200 response (hence no inline comment
is produced for it). -/
theorem C10_decode_error_uncaught (env : Env) (cwd rp tr p e : String)
    (hr : resolvePath env cwd rp tr = .resolved p)
    (ho : env.openOk p = true)
    (ht : env.guessType p = "text/html")
    (he : env.readUtf8 p = Except.error e) :
    send_head env cwd rp tr = .raised e ∧
    (∀ st msg, send_head env cwd rp tr ≠ .httpError st msg) ∧
    (∀ st ct len body, send_head env cwd rp tr ≠ .ok st ct len body) := by
  have h := send_head_raised hr ho ht he
  exact ⟨h, fun st msg => by rw [h]; simp,
    fun st ct len body => by rw [h]; simp⟩

/-- C10 witness: `/bad.html` exists, opens, is HTML, but decoding raises —
`send_head` re-raises the exception. -/
theorem C10_decode_error_uncaught_witness :
    send_head envC10 "/cwd" "/bad.html" "/srv/bad.html" =
      .raised "UnicodeDecodeError" :=
  (C10_decode_error_uncaught envC10 "/cwd" "/bad.html" "/srv/bad.html"
    "/srv/bad.html" "UnicodeDecodeError" (by decide) (by decide)
    (by decide) (by decide)).1
